import Mathlib

/-!
Shallow embedding of the ProcrastiHater event-coordination core:
the detection-packet JSON codec, the cooldown/memory gate, and the
agent-side dispatch handler, with the claims from the specification
settled as theorems.

Sources embedded:
* `src/agent/main.py` — `entrypoint` configuration, `on_data` dispatch
  handler, `scold_user` response task.
* `src/client/services/livekit_client.py` — `send_packet` /
  `_send_packet_async`.
* `shared/protocol.py` (Packet codec), `shared/constants.py`
  (SystemEvents) and `agent/memory.py` (AgentMemory) are imported by the
  code but are not part of the provided sources; they are modelled from
  the specification where noted.

Python `dict` values are modelled as association lists with a
first-match lookup and an in-place overwrite on update; timestamps
(`time.time()`) are modelled as rationals; JSON numbers are modelled as
integers (floating-point payload values are out of scope of the claims).
-/

/-- A JSON value, as produced by parsing a UTF-8 JSON text.  Numbers are
modelled as integers. -/
inductive Json where
  | null : Json
  | bool (b : Bool) : Json
  | num (n : Int) : Json
  | str (s : String) : Json
  | arr (elems : List Json) : Json
  | obj (fields : List (String × Json)) : Json

/-- The opening-brace character, kept as a named constant. -/
def lbrace : Char := Char.ofNat 123

/-- The closing-brace character, kept as a named constant. -/
def rbrace : Char := Char.ofNat 125

/-- First-match lookup in an association list, the model of Python
`dict.__getitem__` / `dict.get`. -/
def lookupKey {α : Type} (k : String) : List (String × α) → Option α
  | [] => none
  | (k', v) :: rest => if k' = k then some v else lookupKey k rest

/-- Overwrite-or-append update of an association list, the model of
Python `dict.__setitem__`. -/
def setKey {α : Type} (k : String) (v : α) : List (String × α) → List (String × α)
  | [] => [(k, v)]
  | (k', v') :: rest => if k' = k then (k, v) :: rest else (k', v') :: setKey k v rest

/-- JSON escaping of a single character inside a string literal: the
quote and the backslash are escaped, every other character is emitted
verbatim. -/
def escapeChar (c : Char) : List Char :=
  if c = '"' ∨ c = '\\' then ['\\', c] else [c]

/-- JSON escaping of the body of a string literal. -/
def escapeChars : List Char → List Char
  | [] => []
  | c :: cs => escapeChar c ++ escapeChars cs

/-- A rendered JSON string literal, surrounding quotes included. -/
def renderStr (s : List Char) : List Char :=
  '"' :: escapeChars s ++ ['"']

/-- The decimal digits of a natural number, most significant first. -/
def renderNat (n : Nat) : List Char :=
  if n = 0 then ['0']
  else (Nat.digits 10 n).reverse.map (fun d => Char.ofNat (d + 48))

/-- The decimal rendering of an integer. -/
def renderInt (n : Int) : List Char :=
  if n < 0 then '-' :: renderNat n.natAbs else renderNat n.toNat

mutual

/-- Canonical rendering of a JSON value to text (no whitespace), the
model of `json.dumps` restricted to the modelled value type. -/
def renderValue : Json → List Char
  | .null => "null".data
  | .bool true => "true".data
  | .bool false => "false".data
  | .num n => renderInt n
  | .str s => renderStr s.data
  | .arr [] => ['[', ']']
  | .arr (x :: xs) => '[' :: renderElems x xs
  | .obj [] => [lbrace, rbrace]
  | .obj (f :: fs) => lbrace :: renderFields f fs
termination_by j => sizeOf j

/-- Rendering of a non-empty run of array elements, separators and the
closing bracket included. -/
def renderElems : Json → List Json → List Char
  | x, [] => renderValue x ++ [']']
  | x, y :: ys => renderValue x ++ ',' :: renderElems y ys
termination_by x xs => sizeOf x + sizeOf xs

/-- Rendering of a non-empty run of object members, separators and the
closing brace included. -/
def renderFields : String × Json → List (String × Json) → List Char
  | (k, v), [] => renderStr k.data ++ ':' :: renderValue v ++ [rbrace]
  | (k, v), g :: gs => renderStr k.data ++ ':' :: renderValue v ++ ',' :: renderFields g gs
termination_by f fs => sizeOf f + sizeOf fs

end

/-- JSON whitespace. -/
def isWs (c : Char) : Bool :=
  c = ' ' ∨ c = '\t' ∨ c = '\n' ∨ c = '\r'

/-- Skip leading JSON whitespace. -/
def skipWs (cs : List Char) : List Char :=
  cs.dropWhile isWs

/-- An ASCII decimal digit. -/
def isDigitCh (c : Char) : Bool :=
  48 ≤ c.toNat ∧ c.toNat ≤ 57

/-- Value of a run of decimal digits, most significant first. -/
def digitsToNat (ds : List Char) : Nat :=
  ds.foldl (fun a c => a * 10 + (c.toNat - 48)) 0

/-- Parse a run of decimal digits; fails when none is present. -/
def parseNat (cs : List Char) : Option (Nat × List Char) :=
  match cs.takeWhile isDigitCh with
  | [] => none
  | ds => some (digitsToNat ds, cs.dropWhile isDigitCh)

/-- Parse the body of a JSON string literal after the opening quote,
accepting only the escapes the renderer produces. -/
def parseStringBody : List Char → Option (List Char × List Char)
  | [] => none
  | [c] =>
    if c = '"' then some ([], []) else none
  | c :: e :: rest2 =>
    if c = '"' then some ([], e :: rest2)
    else if c = '\\' then
      if e = '"' ∨ e = '\\' then
        match parseStringBody rest2 with
        | none => none
        | some (s, r) => some (e :: s, r)
      else none
    else
      match parseStringBody (e :: rest2) with
      | none => none
      | some (s, r) => some (c :: s, r)

mutual

/-- Parse one JSON value, fuel-bounded; the model of `json.loads`
restricted to the modelled value type. -/
def parseValue : Nat → List Char → Option (Json × List Char)
  | 0, _ => none
  | Nat.succ fuel, cs =>
    match skipWs cs with
    | [] => none
    | c :: rest =>
      if c = 'n' then
        match rest with
        | 'u' :: 'l' :: 'l' :: r => some (.null, r)
        | _ => none
      else if c = 't' then
        match rest with
        | 'r' :: 'u' :: 'e' :: r => some (.bool true, r)
        | _ => none
      else if c = 'f' then
        match rest with
        | 'a' :: 'l' :: 's' :: 'e' :: r => some (.bool false, r)
        | _ => none
      else if c = '"' then
        match parseStringBody rest with
        | none => none
        | some (s, r) => some (.str ⟨s⟩, r)
      else if c = '[' then
        match skipWs rest with
        | ']' :: r => some (.arr [], r)
        | r2 =>
          match parseElems fuel r2 with
          | none => none
          | some (vs, r) => some (.arr vs, r)
      else if c = lbrace then
        match skipWs rest with
        | r2 =>
          if r2.head? = some rbrace then some (.obj [], r2.tail)
          else
            match parseFields fuel r2 with
            | none => none
            | some (fs, r) => some (.obj fs, r)
      else if c = '-' then
        match parseNat rest with
        | none => none
        | some (k, r) => some (.num (-(k : Int)), r)
      else if isDigitCh c then
        match parseNat (c :: rest) with
        | none => none
        | some (k, r) => some (.num (k : Int), r)
      else none

/-- Parse a non-empty comma-separated run of array elements up to and
including the closing bracket. -/
def parseElems : Nat → List Char → Option (List Json × List Char)
  | 0, _ => none
  | Nat.succ fuel, cs =>
    match parseValue fuel cs with
    | none => none
    | some (v, r) =>
      match skipWs r with
      | ',' :: r2 =>
        match parseElems fuel r2 with
        | none => none
        | some (vs, r3) => some (v :: vs, r3)
      | ']' :: r2 => some ([v], r2)
      | _ => none

/-- Parse a non-empty comma-separated run of object members up to and
including the closing brace. -/
def parseFields : Nat → List Char → Option (List (String × Json) × List Char)
  | 0, _ => none
  | Nat.succ fuel, cs =>
    match skipWs cs with
    | '"' :: rest =>
      match parseStringBody rest with
      | none => none
      | some (k, r) =>
        match skipWs r with
        | ':' :: r2 =>
          match parseValue fuel r2 with
          | none => none
          | some (v, r3) =>
            match skipWs r3 with
            | ',' :: r4 =>
              match parseFields fuel r4 with
              | none => none
              | some (fs, r5) => some ((⟨k⟩, v) :: fs, r5)
            | r4 =>
              if r4.head? = some rbrace then some ([(⟨k⟩, v)], r4.tail)
              else none
        | _ => none
    | _ => none

end

/-- Decode failure causes, the model of the spec's `DecodeError`. -/
inductive DecodeError where
  | notJson : DecodeError
  | trailingData : DecodeError
  | notAnObject : DecodeError
  | missingEvent : DecodeError
  | eventNotString : DecodeError
  | dataNotObject : DecodeError
deriving DecidableEq

/-- Modelled from the spec: the wire Packet of `shared/protocol.py`
(absent from the provided sources), §3: `{event: string, data: mapping
of arbitrary key→value}`. -/
structure Packet where
  event : String
  data : List (String × Json)

/-- Modelled from the spec: `Packet.to_json` of `shared/protocol.py`
(absent from the provided sources), §4.1/§6: a UTF-8 JSON object with
fields `event` (string) and `data` (object). -/
def Packet.to_json (p : Packet) : String :=
  ⟨renderValue (.obj [("event", .str p.event), ("data", .obj p.data)])⟩

/-- Modelled from the spec: `Packet.from_json` of `shared/protocol.py`
(absent from the provided sources), §4.1: fails when the text is not
valid JSON, when `event` is missing or not a string, or when `data` is
present but not an object; unknown `event` values are not rejected. -/
def Packet.from_json (s : String) : Except DecodeError Packet :=
  match parseValue (s.data.length + 1) s.data with
  | none => .error .notJson
  | some (j, rest) =>
    if skipWs rest = [] then
      match j with
      | .obj fields =>
        match lookupKey "event" fields with
        | some (.str e) =>
          match lookupKey "data" fields with
          | some (.obj d) => .ok ⟨e, d⟩
          | some _ => .error .dataNotObject
          | none => .ok ⟨e, []⟩
        | some _ => .error .eventNotString
        | none => .error .missingEvent
      | _ => .error .notAnObject
    else .error .trailingData

/-- Modelled from the spec: `SystemEvents.PERSONALITY_UPDATE` of
`shared/constants.py` (absent from the provided sources), §6's control
kind. -/
def SystemEvents.PERSONALITY_UPDATE : String := "PERSONALITY_UPDATE"

/-- Modelled from the spec: `SystemEvents.SESSION_START` of
`shared/constants.py` (absent from the provided sources), §6's control
kind. -/
def SystemEvents.SESSION_START : String := "SESSION_START"

/-- Modelled from the spec, §6: the detection kinds of the recognized
closed event-kind set (exact spelling a configuration detail). -/
def recognizedDetectionKinds : List String :=
  ["PHONE_DETECTED", "SLEEPING", "ABSENT", "GAZE_AWAY"]

/-- Modelled from the spec: the gate's EventRecord of `agent/memory.py`
(absent from the provided sources), §3: `{kind, data, observed_at}`. -/
structure EventRecord where
  kind : String
  data : List (String × Json)
  observed_at : ℚ

/-- Modelled from the spec: the retention capacity of the gate's rolling
history (§3: bounded, "last N events", N an implementation choice). -/
def maxRetainedEvents : Nat := 10

/-- Modelled from the spec: the `AgentMemory` gate of `agent/memory.py`
(absent from the provided sources), §3/§4.2: a cooldown duration, the
retained EventRecords, and the CooldownState mapping each event kind to
the timestamp of its last reaction. -/
structure AgentMemory where
  cooldown_seconds : ℚ
  events : List EventRecord
  last_alert_times : List (String × ℚ)

/-- Modelled from the spec: `AgentMemory` construction with an empty
history and empty CooldownState. -/
def mkAgentMemory (cooldown_seconds : ℚ) : AgentMemory :=
  ⟨cooldown_seconds, [], []⟩

/-- The gate as constructed by `entrypoint` in `src/agent/main.py`
(line 28): `AgentMemory(cooldown_seconds=10.0)`. -/
def agentMemoryAtStartup : AgentMemory := mkAgentMemory 10

/-- Modelled from the spec: `AgentMemory.should_alert` of
`agent/memory.py` (absent from the provided sources), §4.2/§8: true iff
no reaction for the kind was ever recorded, or the last one is at least
the cooldown window ago; reads state only. -/
def AgentMemory.should_alert (m : AgentMemory) (kind : String) (now : ℚ) : Bool :=
  match lookupKey kind m.last_alert_times with
  | none => true
  | some last => m.cooldown_seconds ≤ now - last

/-- Modelled from the spec: `AgentMemory.add_event` of `agent/memory.py`
(absent from the provided sources), §3/§4.2: unconditionally appends an
EventRecord (evicting the oldest beyond the retention bound) and sets
CooldownState[kind] to now. -/
def AgentMemory.add_event (m : AgentMemory) (kind : String)
    (data : List (String × Json)) (now : ℚ) : AgentMemory :=
  let es := m.events ++ [⟨kind, data, now⟩]
  { m with
    events := es.drop (es.length - maxRetainedEvents)
    last_alert_times := setKey kind now m.last_alert_times }

/-- Modelled from the spec: `AgentMemory.clear` of `agent/memory.py`
(absent from the provided sources), §4.2 and §9: resets EventRecords to
empty; CooldownState is preserved (the observed behavior clears only the
history, not the cooldown timers). -/
def AgentMemory.clear (m : AgentMemory) : AgentMemory :=
  { m with events := [] }

/-- Modelled from the spec: `AgentMemory.get_summary` of
`agent/memory.py` (absent from the provided sources), §4.2: a compact
digest of the retained EventRecords, degrading to a "no prior incidents"
text on an empty history. -/
def AgentMemory.get_summary (m : AgentMemory) : String :=
  match m.events with
  | [] => "No prior incidents."
  | es => String.intercalate ", " (es.map (·.kind))

mutual

/-- Python `repr` of a JSON-decoded value, as used for values nested in
containers by an f-string (string quoting of nested keys and values is
rendered with plain single quotes; escaping inside them is elided, no
claim exercises it). -/
def pyRepr : Json → String
  | .null => "None"
  | .bool true => "True"
  | .bool false => "False"
  | .num n => ⟨renderInt n⟩
  | .str s => "'" ++ s ++ "'"
  | .arr [] => "[]"
  | .arr (x :: xs) => "[" ++ pyReprElems x xs ++ "]"
  | .obj [] => "\x7b\x7d"
  | .obj (f :: fs) => "\x7b" ++ pyReprFields f fs ++ "\x7d"
termination_by j => sizeOf j

/-- Python `repr` of the elements of a non-empty list. -/
def pyReprElems : Json → List Json → String
  | x, [] => pyRepr x
  | x, y :: ys => pyRepr x ++ ", " ++ pyReprElems y ys
termination_by x xs => sizeOf x + sizeOf xs

/-- Python `repr` of the members of a non-empty dict. -/
def pyReprFields : String × Json → List (String × Json) → String
  | (k, v), [] => "'" ++ k ++ "': " ++ pyRepr v
  | (k, v), g :: gs => "'" ++ k ++ "': " ++ pyRepr v ++ ", " ++ pyReprFields g gs
termination_by f fs => sizeOf f + sizeOf fs

end

/-- Python `str` of a JSON-decoded value, the interpolation an f-string
applies: a string interpolates as itself, anything else as its repr. -/
def pyStr : Json → String
  | .str s => s
  | j => pyRepr j

/-- Python truthiness of a JSON-decoded value (`if p_desc:`). -/
def pyTruthy : Json → Bool
  | .null => false
  | .bool b => b
  | .num n => n ≠ 0
  | .str s => s ≠ ""
  | .arr xs => !xs.isEmpty
  | .obj fs => !fs.isEmpty

/-- The persona string computed by the `PERSONALITY_UPDATE` branch of
`on_data` in `src/agent/main.py` (lines 198-206): `p_name =
packet.data.get("personality", "Unknown")`, `p_desc =
packet.data.get("description", "")`, combined with the character
description when the description is truthy. -/
def personaFrom (data : List (String × Json)) : String :=
  let p_name := (lookupKey "personality" data).getD (.str "Unknown")
  let p_desc := (lookupKey "description" data).getD (.str "")
  if pyTruthy p_desc then
    pyStr p_name ++ "\n(Character Description: " ++ pyStr p_desc ++ ")"
  else
    pyStr p_name

/-- The persona default set in `entrypoint` (`src/agent/main.py` line
48). -/
def initialPersona : String := "Strict Devil Instructor"

/-- The mutable state the `on_data` handler closes over: the current
persona and the memory gate. -/
structure AgentState where
  current_persona : String
  memory : AgentMemory

/-- The agent state right after `entrypoint` initialization. -/
def agentStateAtStartup : AgentState :=
  ⟨initialPersona, agentMemoryAtStartup⟩

/-- The externally observable steps the `on_data` handler performs, in
program order. -/
inductive DispatchOp where
  | decodeFailed : DispatchOp
  | personaUpdated (persona : String) : DispatchOp
  | memoryCleared : DispatchOp
  | alertChecked (kind : String) (result : Bool) : DispatchOp
  | eventAdded (kind : String) : DispatchOp
  | taskSpawned (kind : String) : DispatchOp
deriving DecidableEq

/-- The `on_data` handler of `src/agent/main.py` (lines 167-231), per
inbound payload (already UTF-8-decoded): parse the packet (drop it on
failure), handle the `PERSONALITY_UPDATE` and `SESSION_START` control
kinds, and route every other kind through the gate — on a true
`should_alert` record the event and spawn the `scold_user` task.
Returns the updated closed-over state and the steps taken. -/
def on_data (s : AgentState) (raw : String) (now : ℚ) : AgentState × List DispatchOp :=
  match Packet.from_json raw with
  | .error _ => (s, [.decodeFailed])
  | .ok packet =>
    if packet.event = SystemEvents.PERSONALITY_UPDATE then
      ({ s with current_persona := personaFrom packet.data },
       [.personaUpdated (personaFrom packet.data)])
    else if packet.event = SystemEvents.SESSION_START then
      ({ s with memory := s.memory.clear }, [.memoryCleared])
    else if s.memory.should_alert packet.event now then
      ({ s with memory := s.memory.add_event packet.event packet.data now },
       [.alertChecked packet.event true, .eventAdded packet.event,
        .taskSpawned packet.event])
    else
      (s, [.alertChecked packet.event false])

/-- The externally observable steps of one `scold_user` response task. -/
inductive ScoldOp where
  | contextBuilt (kind : String) (summary : String) : ScoldOp
  | llmRequested : ScoldOp
  | llmErrorLogged (e : String) : ScoldOp
  | ttsStarted : ScoldOp
  | ttsErrorLogged (e : String) : ScoldOp
  | spoke (text : String) : ScoldOp
deriving DecidableEq

/-- The `scold_user` response task of `src/agent/main.py` (lines
124-165): build the context from the gate's summary, request the
scolding from the LLM (on error: log and return), then stream TTS (on
error: log).  The outcomes of the two external collaborator calls are
inputs of the model.  Returns the gate state as the task leaves it and
the steps taken. -/
def scold_user (m : AgentMemory) (packet : Packet)
    (llmResult : Except String String) (ttsResult : Except String Unit) :
    AgentMemory × List ScoldOp :=
  let base : List ScoldOp := [.contextBuilt packet.event m.get_summary, .llmRequested]
  match llmResult with
  | .error e => (m, base ++ [.llmErrorLogged e])
  | .ok text =>
    match ttsResult with
    | .error e => (m, base ++ [.ttsStarted, .ttsErrorLogged e])
    | .ok _ => (m, base ++ [.ttsStarted, .spoke text])

/-- The room handle of the client, with Python truthiness of
`room.local_participant` as a flag. -/
structure Room where
  local_participant : Bool

/-- The externally observable steps of a `send_packet` call. -/
inductive SendOp where
  | warnedNotConnected : SendOp
  | published (data : String) (topic : String) (reliable : Bool) : SendOp
  | errorEmitted (e : String) : SendOp
deriving DecidableEq

/-- The connection-relevant state of `LiveKitClient`
(`src/client/services/livekit_client.py`): `_connected`, `room`, and
whether `_loop` is set. -/
structure LiveKitClientState where
  connected : Bool
  room : Option Room
  hasLoop : Bool

/-- `LiveKitClient.send_packet` (lines 51-62) together with the
`_send_packet_async` coroutine it schedules (lines 64-76): when not
connected or without a room, print a warning and return; otherwise, when
the loop exists, publish the UTF-8 JSON encoding of the packet on the
"detection" topic reliably — the publish outcome of the external SDK is
an input of the model, a failure is caught and emitted as an error
signal. -/
def send_packet (st : LiveKitClientState) (packet : Packet)
    (publishResult : Except String Unit) : LiveKitClientState × List SendOp :=
  if st.connected = false ∨ st.room.isNone = true then
    (st, [.warnedNotConnected])
  else if st.hasLoop then
    match st.room with
    | some room =>
      if room.local_participant then
        match publishResult with
        | .ok _ => (st, [.published packet.to_json "detection" true])
        | .error e => (st, [.errorEmitted e])
      else (st, [])
    | none => (st, [])
  else (st, [])

/-- The tail following a rendered value must not begin with a digit, or
number parsing would consume it. -/
def noDigitHead (cs : List Char) : Prop :=
  ∀ c, cs.head? = some c → isDigitCh c = false


mutual

/-- Fuel needed by `parseValue` to re-parse a rendered value. -/
def jfuel : Json → Nat
  | .null => 1
  | .bool _ => 1
  | .num _ => 1
  | .str _ => 1
  | .arr [] => 1
  | .arr (x :: xs) => 1 + efuel x xs
  | .obj [] => 1
  | .obj (f :: fs) => 1 + ffuel f fs
termination_by j => sizeOf j

/-- Fuel needed by `parseElems` to re-parse a rendered element run. -/
def efuel : Json → List Json → Nat
  | x, [] => 1 + jfuel x
  | x, y :: ys => 1 + jfuel x + efuel y ys
termination_by x xs => sizeOf x + sizeOf xs

/-- Fuel needed by `parseFields` to re-parse a rendered member run. -/
def ffuel : String × Json → List (String × Json) → Nat
  | (_, v), [] => 1 + jfuel v
  | (_, v), g :: gs => 1 + jfuel v + ffuel g gs
termination_by f fs => sizeOf f + sizeOf fs

end


/-- The JSON value a Packet is encoded as. -/
def packetJson (p : Packet) : Json :=
  .obj [("event", .str p.event), ("data", .obj p.data)]


/-- Recognizer for `eventAdded` steps. -/
def isEventAddedOp : DispatchOp → Bool
  | .eventAdded _ => true
  | _ => false

/-- Recognizer for `llmRequested` steps. -/
def isLlmRequestOp : ScoldOp → Bool
  | .llmRequested => true
  | _ => false

/-- The spec's `SESSION_START` scenario wire text,
`'\x7b"event":"SESSION_START","data":\x7b\x7d\x7d'`. -/
def sessionStartRaw : String := "\x7b\"event\":\"SESSION_START\",\"data\":\x7b\x7d\x7d"

/-- A wire text whose event kind is outside the recognized closed set. -/
def mysteryRaw : String := "\x7b\"event\":\"MYSTERY_KIND\",\"data\":\x7b\x7d\x7d"

/-- A `PERSONALITY_UPDATE` wire text carrying a personality name. -/
def personaRaw : String :=
  "\x7b\"event\":\"PERSONALITY_UPDATE\",\"data\":\x7b\"personality\":\"Drill Sergeant\"\x7d\x7d"

/-- A `PERSONALITY_UPDATE` wire text whose data lacks the "personality"
key but carries a description. -/
def personaMissingRaw : String :=
  "\x7b\"event\":\"PERSONALITY_UPDATE\",\"data\":\x7b\"description\":\"grumpy\"\x7d\x7d"

/-- A gate holding three retained EventRecords. -/
def sessionGate3 : AgentMemory :=
  ⟨10,
   [⟨"PHONE_DETECTED", [], 0⟩, ⟨"SLEEPING", [], 1⟩, ⟨"ABSENT", [], 2⟩],
   [("PHONE_DETECTED", 0), ("SLEEPING", 1), ("ABSENT", 2)]⟩

theorem skipWs_cons {c : Char} (cs : List Char) (h : isWs c = false) :
    skipWs (c :: cs) = c :: cs := by
  simp [skipWs, List.dropWhile_cons, h]

theorem isDigitCh_ne {c : Char} (h : isDigitCh c = true) (d : Char)
    (hd : d.toNat < 48 ∨ 57 < d.toNat) : c ≠ d := by
  intro he
  subst he
  simp only [isDigitCh, decide_eq_true_eq] at h
  omega

theorem isDigitCh_not_ws {c : Char} (h : isDigitCh c = true) : isWs c = false := by
  simp only [isWs, decide_eq_false_iff_not]
  push_neg
  refine ⟨isDigitCh_ne h ' ' (by decide), isDigitCh_ne h '\t' (by decide),
    isDigitCh_ne h '\n' (by decide), isDigitCh_ne h '\r' (by decide)⟩

theorem takeWhile_append_of (p : Char → Bool) (l rest : List Char)
    (h1 : ∀ c ∈ l, p c = true)
    (h2 : ∀ c, rest.head? = some c → p c = false) :
    (l ++ rest).takeWhile p = l ∧ (l ++ rest).dropWhile p = rest := by
  induction l with
  | nil =>
    simp only [List.nil_append]
    cases rest with
    | nil => simp
    | cons c t =>
      have := h2 c rfl
      simp_all [List.takeWhile_cons, List.dropWhile_cons]
  | cons c l ih =>
    have hc : p c = true := h1 c (List.mem_cons_self c l)
    have := ih (fun x hx => h1 x (List.mem_cons_of_mem c hx))
    simp_all [List.takeWhile_cons, List.dropWhile_cons]
theorem Char_toNat_ofNat_valid {n : Nat} (h : n.isValidChar) :
    (Char.ofNat n).toNat = n := by
  rw [Char.ofNat, dif_pos h]
  rfl

theorem renderNat_ne_nil (n : Nat) : renderNat n ≠ [] := by
  by_cases h : n = 0
  · simp [renderNat, h]
  · simp only [renderNat, if_neg h, ne_eq, List.map_eq_nil_iff, List.reverse_eq_nil_iff]
    exact Nat.digits_ne_nil_iff_ne_zero.mpr h

theorem mem_renderNat_digit {n : Nat} {c : Char} (h : c ∈ renderNat n) :
    isDigitCh c = true := by
  by_cases h0 : n = 0
  · simp only [renderNat, if_pos h0, List.mem_singleton] at h
    subst h
    decide
  · simp only [renderNat, if_neg h0, List.mem_map, List.mem_reverse] at h
    obtain ⟨d, hd, rfl⟩ := h
    have hlt : d < 10 := Nat.digits_lt_base (by norm_num) hd
    have hv : (d + 48).isValidChar := Or.inl (by omega)
    simp only [isDigitCh, decide_eq_true_eq, Char_toNat_ofNat_valid hv]
    omega

theorem foldr_eq_ofDigits (L : List Nat) :
    List.foldr (fun d a => a * 10 + d) 0 L = Nat.ofDigits 10 L := by
  induction L with
  | nil => simp [Nat.ofDigits]
  | cons d L ih => simp [Nat.ofDigits, ih]; ring

theorem foldr_digits_chars (L : List Nat) (hL : ∀ d ∈ L, d < 10) :
    List.foldr (fun c a => a * 10 + (Char.toNat c - 48)) 0
      (L.map (fun d => Char.ofNat (d + 48))) =
    List.foldr (fun d a => a * 10 + d) 0 L := by
  induction L with
  | nil => rfl
  | cons d L ih =>
    have hd : d < 10 := hL d (List.mem_cons_self d L)
    have hv : (d + 48).isValidChar := Or.inl (by omega)
    simp only [List.map_cons, List.foldr_cons, Char_toNat_ofNat_valid hv,
      ih (fun x hx => hL x (List.mem_cons_of_mem d hx))]
    omega

theorem digitsToNat_renderNat (n : Nat) : digitsToNat (renderNat n) = n := by
  by_cases h0 : n = 0
  · subst h0; decide
  · simp only [digitsToNat, renderNat, if_neg h0]
    rw [List.map_reverse, List.foldl_reverse]
    rw [foldr_digits_chars _ (fun d hd => Nat.digits_lt_base (by norm_num) hd)]
    rw [foldr_eq_ofDigits, Nat.ofDigits_digits]

theorem parseNat_append (l rest : List Char) (hne : l ≠ [])
    (hdig : ∀ c ∈ l, isDigitCh c = true) (hrest : noDigitHead rest) :
    parseNat (l ++ rest) = some (digitsToNat l, rest) := by
  obtain ⟨htake, hdrop⟩ := takeWhile_append_of isDigitCh l rest hdig hrest
  cases l with
  | nil => exact absurd rfl hne
  | cons c t =>
    simp only [parseNat, htake, hdrop]

theorem parseNat_renderNat (n : Nat) (rest : List Char) (hrest : noDigitHead rest) :
    parseNat (renderNat n ++ rest) = some (n, rest) := by
  rw [parseNat_append (renderNat n) rest (renderNat_ne_nil n)
    (fun c hc => mem_renderNat_digit hc) hrest]
  rw [digitsToNat_renderNat]

theorem parseStringBody_escape (s : List Char) (rest : List Char) :
    parseStringBody (escapeChars s ++ '"' :: rest) = some (s, rest) := by
  induction s with
  | nil => cases rest <;> rfl
  | cons c s ih =>
    have hne : escapeChars s ++ '"' :: rest ≠ [] := by
      cases hes : escapeChars s <;> simp
    obtain ⟨e, es, hes⟩ := List.exists_cons_of_ne_nil hne
    have hps : parseStringBody (e :: es) = some (s, rest) := hes ▸ ih
    by_cases hc : c = '"' ∨ c = '\\'
    · have harg : escapeChars (c :: s) ++ '"' :: rest =
          '\\' :: c :: e :: es := by
        simp [escapeChars, escapeChar, hc, hes]
      rw [harg]
      simp [parseStringBody, hc, hps]
    · push_neg at hc
      have harg : escapeChars (c :: s) ++ '"' :: rest = c :: e :: es := by
        simp [escapeChars, escapeChar, hc.1, hc.2, hes]
      rw [harg]
      simp [parseStringBody, hc.1, hc.2, hps]

theorem renderValue_head (j : Json) :
    ∃ c t, renderValue j = c :: t ∧ isWs c = false ∧ c ≠ ']' := by
  cases j with
  | null =>
    refine ⟨'n', ['u', 'l', 'l'], ?_, by decide, by decide⟩
    simp [renderValue]
  | bool b =>
    cases b with
    | true =>
      refine ⟨'t', ['r', 'u', 'e'], ?_, by decide, by decide⟩
      simp [renderValue]
    | false =>
      refine ⟨'f', ['a', 'l', 's', 'e'], ?_, by decide, by decide⟩
      simp [renderValue]
  | num n =>
    by_cases hn : n < 0
    · refine ⟨'-', renderNat n.natAbs, ?_, by decide, by decide⟩
      simp [renderValue, renderInt, hn]
    · obtain ⟨c, t, hct⟩ := List.exists_cons_of_ne_nil (renderNat_ne_nil n.toNat)
      have hd : isDigitCh c = true :=
        mem_renderNat_digit (n := n.toNat) (hct ▸ List.mem_cons_self c t)
      refine ⟨c, t, ?_, isDigitCh_not_ws hd, isDigitCh_ne hd ']' (by decide)⟩
      simp [renderValue, renderInt, hn, hct]
  | str s =>
    refine ⟨'"', escapeChars s.data ++ ['"'], ?_, by decide, by decide⟩
    simp [renderValue, renderStr]
  | arr xs =>
    cases xs with
    | nil =>
      refine ⟨'[', [']'], ?_, by decide, by decide⟩
      simp [renderValue]
    | cons x xs =>
      refine ⟨'[', renderElems x xs, ?_, by decide, by decide⟩
      simp [renderValue]
  | obj fs =>
    cases fs with
    | nil =>
      refine ⟨lbrace, [rbrace], ?_, by decide, by decide⟩
      simp [renderValue]
    | cons f fs =>
      refine ⟨lbrace, renderFields f fs, ?_, by decide, by decide⟩
      simp [renderValue]

theorem jfuel_pos (j : Json) : 1 ≤ jfuel j := by
  cases j with
  | null => simp [jfuel]
  | bool b => simp [jfuel]
  | num n => simp [jfuel]
  | str s => simp [jfuel]
  | arr xs => cases xs <;> simp [jfuel]
  | obj fs => cases fs <;> simp [jfuel]

theorem efuel_pos (x : Json) (xs : List Json) : 1 ≤ efuel x xs := by
  cases xs <;> (simp [efuel]; try omega)

theorem ffuel_pos (f : String × Json) (fs : List (String × Json)) : 1 ≤ ffuel f fs := by
  obtain ⟨k, v⟩ := f
  cases fs <;> (simp [ffuel]; try omega)

theorem renderElems_form (x : Json) (xs : List Json) :
    ∃ u, renderElems x xs = renderValue x ++ u := by
  cases xs with
  | nil => exact ⟨[']'], by simp [renderElems]⟩
  | cons y ys => exact ⟨',' :: renderElems y ys, by simp [renderElems]⟩

set_option maxHeartbeats 1000000 in
theorem parse_render_core (fuel : Nat) :
    (∀ j rest, jfuel j ≤ fuel → noDigitHead rest →
      parseValue fuel (renderValue j ++ rest) = some (j, rest)) ∧
    (∀ x xs rest, efuel x xs ≤ fuel →
      parseElems fuel (renderElems x xs ++ rest) = some (x :: xs, rest)) ∧
    (∀ f fs rest, ffuel f fs ≤ fuel →
      parseFields fuel (renderFields f fs ++ rest) = some (f :: fs, rest)) := by
  induction fuel with
  | zero =>
    refine ⟨fun j rest h _ => absurd h (by have := jfuel_pos j; omega),
            fun x xs rest h => absurd h (by have := efuel_pos x xs; omega),
            fun f fs rest h => absurd h (by have := ffuel_pos f fs; omega)⟩
  | succ fuel ih =>
    obtain ⟨ihV, ihE, ihF⟩ := ih
    refine ⟨?_, ?_, ?_⟩
    · intro j rest hfuel hrest
      cases j with
      | null =>
        rw [show renderValue .null = ['n', 'u', 'l', 'l'] from by simp [renderValue]]
        simp only [List.cons_append, List.nil_append]
        rw [parseValue, skipWs_cons _ (by decide)]
        simp +decide only [if_true, if_false]
      | bool b =>
        cases b with
        | true =>
          rw [show renderValue (.bool true) = ['t', 'r', 'u', 'e'] from by simp [renderValue]]
          simp only [List.cons_append, List.nil_append]
          rw [parseValue, skipWs_cons _ (by decide)]
          simp +decide only [if_true, if_false]
        | false =>
          rw [show renderValue (.bool false) = ['f', 'a', 'l', 's', 'e'] from by
            simp [renderValue]]
          simp only [List.cons_append, List.nil_append]
          rw [parseValue, skipWs_cons _ (by decide)]
          simp +decide only [if_true, if_false]
      | num n =>
        by_cases hn : n < 0
        · rw [show renderValue (.num n) = '-' :: renderNat n.natAbs from by
            simp [renderValue, renderInt, hn]]
          simp only [List.cons_append]
          rw [parseValue, skipWs_cons _ (by decide)]
          simp +decide only [if_true, if_false]
          rw [parseNat_renderNat _ _ hrest]
          simp only [Option.some.injEq, Prod.mk.injEq, Json.num.injEq]
          exact ⟨by omega, trivial⟩
        · obtain ⟨c, t, hct⟩ := List.exists_cons_of_ne_nil (renderNat_ne_nil n.toNat)
          have hd : isDigitCh c = true :=
            mem_renderNat_digit (n := n.toNat) (hct ▸ List.mem_cons_self c t)
          rw [show renderValue (.num n) = renderNat n.toNat from by
            simp [renderValue, renderInt, hn]]
          rw [hct]
          simp only [List.cons_append]
          rw [parseValue, skipWs_cons _ (isDigitCh_not_ws hd)]
          simp only []
          rw [if_neg (isDigitCh_ne hd 'n' (by decide)),
            if_neg (isDigitCh_ne hd 't' (by decide)),
            if_neg (isDigitCh_ne hd 'f' (by decide)),
            if_neg (isDigitCh_ne hd '"' (by decide)),
            if_neg (isDigitCh_ne hd '[' (by decide)),
            if_neg (isDigitCh_ne hd lbrace (by decide)),
            if_neg (isDigitCh_ne hd '-' (by decide)),
            if_pos hd]
          rw [show c :: (t ++ rest) = (c :: t) ++ rest from by simp, ← hct]
          rw [parseNat_renderNat _ _ hrest]
          simp only [Option.some.injEq, Prod.mk.injEq, Json.num.injEq]
          exact ⟨by omega, trivial⟩
      | str s =>
        obtain ⟨sd⟩ := s
        rw [show renderValue (.str ⟨sd⟩) = '"' :: (escapeChars sd ++ ['"']) from by
          simp [renderValue, renderStr]]
        simp only [List.cons_append, List.append_assoc, List.singleton_append,
          List.nil_append]
        rw [parseValue, skipWs_cons _ (by decide)]
        simp +decide only [if_true, if_false]
        rw [parseStringBody_escape]
      | arr xs =>
        cases xs with
        | nil =>
          rw [show renderValue (.arr []) = ['[', ']'] from by simp [renderValue]]
          simp only [List.cons_append, List.nil_append]
          rw [parseValue, skipWs_cons _ (by decide)]
          simp +decide only [if_true, if_false]
          rw [skipWs_cons _ (by decide)]
          rfl
        | cons x xs =>
          have hfe : efuel x xs ≤ fuel := by
            simp only [jfuel] at hfuel
            omega
          obtain ⟨c, t, hct, hws, hcne⟩ := renderValue_head x
          obtain ⟨u, hu⟩ := renderElems_form x xs
          rw [show renderValue (.arr (x :: xs)) = '[' :: renderElems x xs from by
            simp [renderValue]]
          simp only [List.cons_append]
          rw [parseValue, skipWs_cons _ (by decide)]
          simp +decide only [if_true, if_false]
          rw [show skipWs (renderElems x xs ++ rest) = renderElems x xs ++ rest from by
            rw [hu, hct]
            simp only [List.cons_append]
            exact skipWs_cons _ hws]
          have hpe := ihE x xs rest hfe
          split
          · next r heq =>
            exfalso
            rw [hu, hct] at heq
            simp only [List.cons_append, List.cons.injEq] at heq
            exact hcne heq.1
          · rw [hpe]
      | obj fs =>
        cases fs with
        | nil =>
          rw [show renderValue (.obj []) = [lbrace, rbrace] from by simp [renderValue]]
          simp only [List.cons_append, List.nil_append]
          rw [parseValue, skipWs_cons _ (by decide)]
          simp +decide only [if_true, if_false]
          rw [skipWs_cons _ (by decide)]
          simp +decide only [List.head?_cons, List.tail_cons, if_true, if_false]
        | cons f fs =>
          obtain ⟨k, v⟩ := f
          have hff : ffuel (k, v) fs ≤ fuel := by
            simp only [jfuel] at hfuel
            omega
          rw [show renderValue (.obj ((k, v) :: fs)) = lbrace :: renderFields (k, v) fs
            from by simp [renderValue]]
          simp only [List.cons_append]
          rw [parseValue, skipWs_cons _ (by decide)]
          simp +decide only [if_true, if_false]
          obtain ⟨w, hw⟩ : ∃ w, renderFields (k, v) fs = '"' :: w := by
            cases fs with
            | nil =>
              exact ⟨escapeChars k.data ++ '"' :: ':' :: (renderValue v ++ [rbrace]),
                by simp [renderFields, renderStr]⟩
            | cons g gs =>
              exact ⟨escapeChars k.data ++ '"' :: ':' :: (renderValue v ++ ',' :: renderFields g gs),
                by simp [renderFields, renderStr]⟩
          rw [hw]
          simp only [List.cons_append]
          rw [skipWs_cons _ (by decide)]
          rw [show ('"' :: (w ++ rest)).head? = some '"' from rfl]
          rw [if_neg (by simp +decide : ¬(some '"' = some rbrace))]
          rw [show '"' :: (w ++ rest) = renderFields (k, v) fs ++ rest from by
            rw [hw]; simp]
          rw [ihF (k, v) fs rest hff]
    · intro x xs rest hfuel
      cases xs with
      | nil =>
        have hfj : jfuel x ≤ fuel := by
          simp only [efuel] at hfuel
          omega
        rw [show renderElems x [] = renderValue x ++ [']'] from by simp [renderElems]]
        simp only [List.append_assoc, List.singleton_append]
        rw [parseElems]
        rw [ihV x (']' :: rest) hfj (by intro c hc; simp at hc; subst hc; decide)]
        simp only []
        rw [skipWs_cons _ (by decide)]
        rfl
      | cons y ys =>
        have hfj : jfuel x ≤ fuel := by
          simp only [efuel] at hfuel
          omega
        have hfe2 : efuel y ys ≤ fuel := by
          have := jfuel_pos x
          simp only [efuel] at hfuel
          omega
        rw [show renderElems x (y :: ys) = renderValue x ++ ',' :: renderElems y ys from by
          simp [renderElems]]
        simp only [List.append_assoc, List.cons_append]
        rw [parseElems]
        rw [ihV x (',' :: (renderElems y ys ++ rest)) hfj
          (by intro c hc; simp at hc; subst hc; decide)]
        simp only []
        rw [skipWs_cons _ (by decide)]
        simp +decide only [if_true, if_false]
        rw [ihE y ys rest hfe2]
    · intro f fs rest hfuel
      obtain ⟨k, v⟩ := f
      obtain ⟨kd⟩ := k
      have hfj : jfuel v ≤ fuel := by
        cases fs with
        | nil => simp only [ffuel] at hfuel; omega
        | cons g gs => simp only [ffuel] at hfuel; omega
      cases fs with
      | nil =>
        rw [show renderFields (⟨kd⟩, v) [] =
            '"' :: (escapeChars kd ++ ('"' :: (':' :: (renderValue v ++ [rbrace]))))
          from by simp [renderFields, renderStr]]
        rw [parseFields]
        rw [show skipWs ('"' :: (escapeChars kd ++ ('"' :: (':' :: (renderValue v ++ [rbrace])))) ++ rest)
            = '"' :: ((escapeChars kd ++ ('"' :: (':' :: (renderValue v ++ [rbrace])))) ++ rest)
          from by simp only [List.cons_append]; exact skipWs_cons _ (by decide)]
        simp only [List.append_assoc, List.cons_append, List.singleton_append,
          List.nil_append]
        rw [parseStringBody_escape]
        simp only []
        rw [skipWs_cons _ (by decide)]
        simp +decide only [if_true, if_false]
        rw [ihV v (rbrace :: rest) hfj (by intro c hc; simp at hc; subst hc; decide)]
        simp only []
        rw [skipWs_cons _ (by decide)]
        split
        · next r4 heq =>
          exfalso
          have : rbrace = ',' := (List.cons.injEq .. ▸ heq : _ ∧ _).1
          exact absurd this (by decide)
        · simp +decide only [List.head?_cons, List.tail_cons, if_true, if_false]
      | cons g gs =>
        have hfg : ffuel g gs ≤ fuel := by
          have := jfuel_pos v
          simp only [ffuel] at hfuel
          omega
        rw [show renderFields (⟨kd⟩, v) (g :: gs) =
            '"' :: (escapeChars kd ++ ('"' :: (':' :: (renderValue v ++ (',' :: renderFields g gs)))))
          from by simp [renderFields, renderStr]]
        rw [parseFields]
        rw [show skipWs ('"' :: (escapeChars kd ++ ('"' :: (':' :: (renderValue v ++ (',' :: renderFields g gs))))) ++ rest)
            = '"' :: ((escapeChars kd ++ ('"' :: (':' :: (renderValue v ++ (',' :: renderFields g gs))))) ++ rest)
          from by simp only [List.cons_append]; exact skipWs_cons _ (by decide)]
        simp only [List.append_assoc, List.cons_append, List.singleton_append,
          List.nil_append]
        rw [parseStringBody_escape]
        simp only []
        rw [skipWs_cons _ (by decide)]
        simp +decide only [if_true, if_false]
        rw [ihV v (',' :: (renderFields g gs ++ rest)) hfj
          (by intro c hc; simp at hc; subst hc; decide)]
        simp only []
        rw [skipWs_cons _ (by decide)]
        simp +decide only [if_true, if_false]
        rw [ihF g gs rest hfg]

mutual

theorem jfuel_le_render (j : Json) : jfuel j ≤ (renderValue j).length := by
  cases j with
  | null => simp [jfuel, renderValue]
  | bool b => cases b <;> simp [jfuel, renderValue]
  | num n =>
    have h1 : jfuel (.num n) = 1 := by simp [jfuel]
    rw [h1]
    by_cases hn : n < 0
    · simp [renderValue, renderInt, hn]
    · rw [show renderValue (.num n) = renderNat n.toNat from by
        simp [renderValue, renderInt, hn]]
      obtain ⟨c, t, hct⟩ := List.exists_cons_of_ne_nil (renderNat_ne_nil n.toNat)
      simp [hct]
  | str s => simp [jfuel, renderValue, renderStr]
  | arr xs =>
    cases xs with
    | nil => simp [jfuel, renderValue]
    | cons x xs =>
      have := efuel_le_render x xs
      rw [show renderValue (.arr (x :: xs)) = '[' :: renderElems x xs from by
        simp [renderValue]]
      simp only [jfuel, List.length_cons]
      omega
  | obj fs =>
    cases fs with
    | nil => simp [jfuel, renderValue]
    | cons f fs =>
      have := ffuel_le_render f fs
      rw [show renderValue (.obj (f :: fs)) = lbrace :: renderFields f fs from by
        simp [renderValue]]
      simp only [jfuel, List.length_cons]
      omega
termination_by sizeOf j

theorem efuel_le_render (x : Json) (xs : List Json) :
    efuel x xs ≤ (renderElems x xs).length := by
  cases xs with
  | nil =>
    have := jfuel_le_render x
    rw [show renderElems x [] = renderValue x ++ [']'] from by simp [renderElems]]
    simp only [efuel, List.length_append, List.length_cons, List.length_nil]
    omega
  | cons y ys =>
    have h1 := jfuel_le_render x
    have h2 := efuel_le_render y ys
    rw [show renderElems x (y :: ys) = renderValue x ++ ',' :: renderElems y ys from by
      simp [renderElems]]
    simp only [efuel, List.length_append, List.length_cons]
    omega
termination_by sizeOf x + sizeOf xs

theorem ffuel_le_render (f : String × Json) (fs : List (String × Json)) :
    ffuel f fs ≤ (renderFields f fs).length := by
  obtain ⟨k, v⟩ := f
  cases fs with
  | nil =>
    have := jfuel_le_render v
    rw [show renderFields (k, v) [] = renderStr k.data ++ ':' :: renderValue v ++ [rbrace]
      from by simp [renderFields]]
    simp only [ffuel, List.length_append, List.length_cons, List.length_nil]
    omega
  | cons g gs =>
    have h1 := jfuel_le_render v
    have h2 := ffuel_le_render g gs
    rw [show renderFields (k, v) (g :: gs) =
        renderStr k.data ++ ':' :: renderValue v ++ ',' :: renderFields g gs
      from by simp [renderFields]]
    simp only [ffuel, List.length_append, List.length_cons]
    omega
termination_by sizeOf f + sizeOf fs

end

theorem parseValue_render_closed (j : Json) (fuel : Nat) (h : jfuel j ≤ fuel) :
    parseValue fuel (renderValue j) = some (j, []) := by
  have := (parse_render_core fuel).1 j [] h (by intro c hc; simp at hc)
  rwa [List.append_nil] at this

/-- C3: for every Packet p (JSON-representable data by construction of
the model), `decode(encode(p))` equals p: the decoded packet has the
same event string and an equivalent data mapping. -/
theorem spec_c3_packet_roundtrip (p : Packet) : Packet.from_json p.to_json = .ok p := by
  obtain ⟨e, d⟩ := p
  rw [Packet.from_json]
  rw [show (Packet.to_json ⟨e, d⟩).data = renderValue (packetJson ⟨e, d⟩) from rfl]
  rw [parseValue_render_closed _ _ (by
    have := jfuel_le_render (packetJson ⟨e, d⟩)
    omega)]
  simp [packetJson, skipWs, lookupKey]

theorem lookupKey_setKey_self {α : Type} (k : String) (v : α) (l : List (String × α)) :
    lookupKey k (setKey k v l) = some v := by
  induction l with
  | nil => simp [setKey, lookupKey]
  | cons p rest ih =>
    obtain ⟨k', v'⟩ := p
    by_cases h : k' = k
    · simp [setKey, h, lookupKey]
    · simp [setKey, h, lookupKey, ih]

theorem from_json_render_missing_event (fs : List (String × Json))
    (h : lookupKey "event" fs = none) :
    Packet.from_json ⟨renderValue (.obj fs)⟩ = .error .missingEvent := by
  rw [Packet.from_json]
  rw [show (String.mk (renderValue (.obj fs))).data = renderValue (Json.obj fs) from rfl]
  rw [parseValue_render_closed _ _ (by
    have := jfuel_le_render (.obj fs)
    omega)]
  simp [skipWs, h]

/-- C1: for every event kind k and cooldown window W (the agent's gate
is constructed with W = 10 seconds): after `add_event(k, ...)` at time
t, `should_alert(k)` is false at any t' with t ≤ t' < t+W and true at
any t' ≥ t+W; and `should_alert(k)` is true for a kind with no prior
`add_event`, regardless of elapsed time. -/
theorem spec_c1_cooldown_gate (m : AgentMemory) (k : String)
    (d : List (String × Json)) (t t' : ℚ) :
    agentMemoryAtStartup.cooldown_seconds = 10 ∧
    (t ≤ t' → t' < t + m.cooldown_seconds →
      (m.add_event k d t).should_alert k t' = false) ∧
    (t + m.cooldown_seconds ≤ t' →
      (m.add_event k d t).should_alert k t' = true) ∧
    (lookupKey k m.last_alert_times = none → m.should_alert k t' = true) := by
  refine ⟨rfl, ?_, ?_, ?_⟩
  · intro _ hlt
    simp only [AgentMemory.should_alert, AgentMemory.add_event, lookupKey_setKey_self]
    simp only [decide_eq_false_iff_not, not_le]
    linarith
  · intro hge
    simp only [AgentMemory.should_alert, AgentMemory.add_event, lookupKey_setKey_self]
    simp only [decide_eq_true_eq]
    linarith
  · intro hnone
    simp [AgentMemory.should_alert, hnone]

theorem spec_c1_witness :
    ((agentMemoryAtStartup.add_event "PHONE_DETECTED" [] 0).should_alert
      "PHONE_DETECTED" 5 = false) ∧
    ((agentMemoryAtStartup.add_event "PHONE_DETECTED" [] 0).should_alert
      "PHONE_DETECTED" 11 = true) ∧
    (agentMemoryAtStartup.should_alert "PHONE_DETECTED" 99 = true) :=
  ⟨(spec_c1_cooldown_gate agentMemoryAtStartup "PHONE_DETECTED" [] 0 5).2.1
      (by decide) (by simp only [agentMemoryAtStartup, mkAgentMemory, zero_add]; decide),
   (spec_c1_cooldown_gate agentMemoryAtStartup "PHONE_DETECTED" [] 0 11).2.2.1
      (by simp only [agentMemoryAtStartup, mkAgentMemory, zero_add]; decide),
   (spec_c1_cooldown_gate agentMemoryAtStartup "PHONE_DETECTED" [] 0 99).2.2.2 rfl⟩

/-- C6: an inbound payload that is malformed JSON, or whose JSON lacks a
valid `event` field, fails decoding with a DecodeError; the dispatch
handler drops the packet, mutates no gate or persona state, and stays
alive for subsequent packets. -/
theorem spec_c6_decode_failure (s : AgentState) (raw : String) (now : ℚ) :
    (∀ e, Packet.from_json raw = .error e → on_data s raw now = (s, [.decodeFailed])) ∧
    (∀ fs : List (String × Json), lookupKey "event" fs = none →
      Packet.from_json ⟨renderValue (.obj fs)⟩ = .error .missingEvent) := by
  constructor
  · intro e he
    unfold on_data
    rw [he]
  · intro fs h
    exact from_json_render_missing_event fs h

theorem spec_c6_witness :
    Packet.from_json "not json" = .error .notJson ∧
    on_data agentStateAtStartup "not json" 0 = (agentStateAtStartup, [.decodeFailed]) ∧
    Packet.from_json ⟨renderValue (.obj [("data", .obj [])])⟩ = .error .missingEvent :=
  ⟨rfl,
   (spec_c6_decode_failure agentStateAtStartup "not json" 0).1 .notJson rfl,
   (spec_c6_decode_failure agentStateAtStartup "not json" 0).2 [("data", .obj [])] rfl⟩

/-- C2: per dispatched packet, `add_event` is invoked iff `should_alert`
returned true, at most once; suppressed events are never recorded; and
the response task is spawned only after `add_event`. -/
theorem spec_c2_dispatch_pairing (s : AgentState) (raw : String) (now : ℚ) :
    ((∃ k, DispatchOp.eventAdded k ∈ (on_data s raw now).2) ↔
      (∃ k, DispatchOp.alertChecked k true ∈ (on_data s raw now).2)) ∧
    ((on_data s raw now).2.countP isEventAddedOp ≤ 1) ∧
    (∀ k, DispatchOp.taskSpawned k ∈ (on_data s raw now).2 →
      ∃ pre post, (on_data s raw now).2 = pre ++ DispatchOp.eventAdded k :: post ∧
        DispatchOp.taskSpawned k ∈ post) := by
  unfold on_data
  cases hd : Packet.from_json raw with
  | error e =>
    simp [isEventAddedOp]
  | ok pk =>
    simp only []
    by_cases h1 : pk.event = SystemEvents.PERSONALITY_UPDATE
    · rw [if_pos h1]
      simp [isEventAddedOp]
    · rw [if_neg h1]
      by_cases h2 : pk.event = SystemEvents.SESSION_START
      · rw [if_pos h2]
        simp [isEventAddedOp]
      · rw [if_neg h2]
        by_cases h3 : s.memory.should_alert pk.event now = true
        · rw [if_pos h3]
          refine ⟨?_, ?_, ?_⟩
          · constructor
            · intro _
              exact ⟨pk.event, by simp⟩
            · intro _
              exact ⟨pk.event, by simp⟩
          · simp [isEventAddedOp, List.countP_cons]
          · intro k hk
            simp only [List.mem_cons, List.not_mem_nil, or_false] at hk
            rcases hk with h | h | h
            · exact absurd h (by simp)
            · exact absurd h (by simp)
            · obtain rfl : k = pk.event := by
                injection h
              exact ⟨[DispatchOp.alertChecked pk.event true],
                [DispatchOp.taskSpawned pk.event], by simp, by simp⟩
        · rw [if_neg h3]
          refine ⟨?_, ?_, ?_⟩
          · constructor
            · rintro ⟨k, hk⟩
              simp at hk
            · rintro ⟨k, hk⟩
              simp at hk
          · simp [isEventAddedOp, List.countP_cons]
          · intro k hk
            simp at hk

/-- C4: dispatching a SESSION_START packet clears the gate's retained
EventRecords (3 retained records become 0), performs no `should_alert`
check, no `add_event` and no response task, and is idempotent from the
gate's perspective (clearing empty history is a no-op). -/
theorem spec_c4_session_start_clears (s : AgentState) (raw : String) (now : ℚ)
    (pk : Packet) (hdec : Packet.from_json raw = .ok pk)
    (hev : pk.event = SystemEvents.SESSION_START) :
    on_data s raw now = ({ s with memory := s.memory.clear }, [.memoryCleared]) ∧
    (on_data s raw now).1.memory.events = [] ∧
    s.memory.clear.clear = s.memory.clear := by
  have hne : ¬ pk.event = SystemEvents.PERSONALITY_UPDATE := by
    rw [hev]
    decide
  have hmain : on_data s raw now = ({ s with memory := s.memory.clear }, [.memoryCleared]) := by
    unfold on_data
    rw [hdec]
    simp only []
    rw [if_neg hne, if_pos hev]
  refine ⟨hmain, ?_, rfl⟩
  rw [hmain]
  rfl

theorem spec_c4_witness :
    sessionGate3.events.length = 3 ∧
    Packet.from_json sessionStartRaw = .ok ⟨"SESSION_START", []⟩ ∧
    on_data ⟨initialPersona, sessionGate3⟩ sessionStartRaw 5 =
      (⟨initialPersona, sessionGate3.clear⟩, [.memoryCleared]) ∧
    (on_data ⟨initialPersona, sessionGate3⟩ sessionStartRaw 5).1.memory.events.length = 0 :=
  ⟨rfl, rfl,
   (spec_c4_session_start_clears ⟨initialPersona, sessionGate3⟩ sessionStartRaw 5
      ⟨"SESSION_START", []⟩ rfl rfl).1,
   by
     rw [(spec_c4_session_start_clears ⟨initialPersona, sessionGate3⟩ sessionStartRaw 5
       ⟨"SESSION_START", []⟩ rfl rfl).2.1]
     rfl⟩

/-- C5 counterexample: a decoded packet whose kind is outside the
recognized closed set of detection and control kinds is not treated as a
no-op pass-through: dispatching it from a fresh gate performs an
`add_event`, spawns a response task, and mutates the CooldownState. -/
theorem spec_c5_counterexample :
    ("MYSTERY_KIND" ∉ recognizedDetectionKinds ∧
     "MYSTERY_KIND" ≠ SystemEvents.PERSONALITY_UPDATE ∧
     "MYSTERY_KIND" ≠ SystemEvents.SESSION_START) ∧
    (on_data agentStateAtStartup mysteryRaw 0).2 =
      [.alertChecked "MYSTERY_KIND" true, .eventAdded "MYSTERY_KIND",
       .taskSpawned "MYSTERY_KIND"] ∧
    (on_data agentStateAtStartup mysteryRaw 0).1.memory.last_alert_times =
      [("MYSTERY_KIND", 0)] ∧
    agentStateAtStartup.memory.last_alert_times = [] :=
  ⟨by decide, rfl, rfl, rfl⟩

/-- C5 amended: a decoded packet whose kind is neither
`PERSONALITY_UPDATE` nor `SESSION_START` — unknown kinds included — is
routed through the gate exactly like a detection kind: `should_alert` is
checked and, when it returns true, the event is recorded and a response
task is spawned; dispatch never fails on it. -/
theorem spec_c5_amended (s : AgentState) (raw : String) (now : ℚ) (pk : Packet)
    (hdec : Packet.from_json raw = .ok pk)
    (h1 : pk.event ≠ SystemEvents.PERSONALITY_UPDATE)
    (h2 : pk.event ≠ SystemEvents.SESSION_START) :
    on_data s raw now =
      (if s.memory.should_alert pk.event now then
        ({ s with memory := s.memory.add_event pk.event pk.data now },
         [.alertChecked pk.event true, .eventAdded pk.event, .taskSpawned pk.event])
      else (s, [.alertChecked pk.event false])) := by
  unfold on_data
  rw [hdec]
  simp only []
  rw [if_neg h1, if_neg h2]

theorem spec_c5_amended_witness :
    on_data agentStateAtStartup mysteryRaw 0 =
      (if agentStateAtStartup.memory.should_alert "MYSTERY_KIND" 0 then
        ({ agentStateAtStartup with
            memory := agentStateAtStartup.memory.add_event "MYSTERY_KIND" [] 0 },
         [.alertChecked "MYSTERY_KIND" true, .eventAdded "MYSTERY_KIND",
          .taskSpawned "MYSTERY_KIND"])
      else (agentStateAtStartup, [.alertChecked "MYSTERY_KIND" false])) :=
  spec_c5_amended agentStateAtStartup mysteryRaw 0 ⟨"MYSTERY_KIND", []⟩ rfl
    (by decide) (by decide)

/-- C8: dispatching the same PERSONALITY_UPDATE payload twice leaves the
active persona unchanged after the second application, and handling it
mutates only the persona: the gate state is untouched and no response
task is spawned. -/
theorem spec_c8_personality_idempotent (s : AgentState) (raw : String)
    (now now2 : ℚ) (pk : Packet) (hdec : Packet.from_json raw = .ok pk)
    (hev : pk.event = SystemEvents.PERSONALITY_UPDATE) :
    (on_data s raw now).1.current_persona = personaFrom pk.data ∧
    (on_data (on_data s raw now).1 raw now2).1 = (on_data s raw now).1 ∧
    (on_data s raw now).1.memory = s.memory ∧
    (on_data s raw now).2 = [.personaUpdated (personaFrom pk.data)] := by
  have hmain : ∀ s' : AgentState, on_data s' raw now2 =
      ({ s' with current_persona := personaFrom pk.data },
       [.personaUpdated (personaFrom pk.data)]) := by
    intro s'
    unfold on_data
    rw [hdec]
    simp only []
    rw [if_pos hev]
  have hmain1 : on_data s raw now =
      ({ s with current_persona := personaFrom pk.data },
       [.personaUpdated (personaFrom pk.data)]) := by
    unfold on_data
    rw [hdec]
    simp only []
    rw [if_pos hev]
  rw [hmain1, hmain]
  exact ⟨rfl, rfl, rfl, rfl⟩

theorem spec_c8_witness :
    (on_data agentStateAtStartup personaRaw 0).1.current_persona =
      personaFrom [("personality", .str "Drill Sergeant")] ∧
    (on_data (on_data agentStateAtStartup personaRaw 0).1 personaRaw 1).1 =
      (on_data agentStateAtStartup personaRaw 0).1 ∧
    (on_data agentStateAtStartup personaRaw 0).1.memory = agentStateAtStartup.memory ∧
    (on_data agentStateAtStartup personaRaw 0).2 =
      [.personaUpdated (personaFrom [("personality", .str "Drill Sergeant")])] :=
  spec_c8_personality_idempotent agentStateAtStartup personaRaw 0 1
    ⟨"PERSONALITY_UPDATE", [("personality", .str "Drill Sergeant")]⟩ rfl rfl

/-- C9: a PERSONALITY_UPDATE packet whose data lacks the "personality"
key still dispatches successfully, setting the persona to the fallback
"Unknown", with the character description appended when a truthy
"description" value is present. -/
theorem spec_c9_personality_fallback (s : AgentState) (raw : String) (now : ℚ)
    (pk : Packet) (hdec : Packet.from_json raw = .ok pk)
    (hev : pk.event = SystemEvents.PERSONALITY_UPDATE)
    (hmiss : lookupKey "personality" pk.data = none) :
    (on_data s raw now).2 = [.personaUpdated (personaFrom pk.data)] ∧
    (on_data s raw now).1.current_persona =
      (match lookupKey "description" pk.data with
       | none => "Unknown"
       | some d =>
         if pyTruthy d then "Unknown\n(Character Description: " ++ pyStr d ++ ")"
         else "Unknown") := by
  have hmain : on_data s raw now =
      ({ s with current_persona := personaFrom pk.data },
       [.personaUpdated (personaFrom pk.data)]) := by
    unfold on_data
    rw [hdec]
    simp only []
    rw [if_pos hev]
  refine ⟨by rw [hmain], ?_⟩
  rw [hmain]
  show personaFrom pk.data = _
  unfold personaFrom
  rw [hmiss]
  cases hdesc : lookupKey "description" pk.data with
  | none => simp [pyTruthy, pyStr]
  | some d =>
    simp only [Option.getD]
    cases hp : pyTruthy d with
    | true => simp [hp, pyStr]
    | false => simp [hp, pyStr]

theorem spec_c9_witness :
    (on_data agentStateAtStartup personaMissingRaw 0).1.current_persona =
      "Unknown\n(Character Description: grumpy)" := by
  have h := spec_c9_personality_fallback agentStateAtStartup personaMissingRaw 0
    ⟨"PERSONALITY_UPDATE", [("description", .str "grumpy")]⟩ rfl rfl rfl
  rw [h.2]
  rfl

/-- C7: when the LLM or TTS collaborator call inside the `scold_user`
response task fails, the task terminates and logs the failure without
mutating any gate state and without breaking dispatch; no retry is
attempted for that trigger. -/
theorem spec_c7_scold_failure_isolation (m : AgentMemory) (pk : Packet)
    (llmResult : Except String String) (ttsResult : Except String Unit) :
    (scold_user m pk llmResult ttsResult).1 = m ∧
    ((scold_user m pk llmResult ttsResult).2.countP isLlmRequestOp ≤ 1) ∧
    (∀ e, llmResult = .error e →
      (scold_user m pk llmResult ttsResult).2 =
        [.contextBuilt pk.event m.get_summary, .llmRequested, .llmErrorLogged e]) ∧
    (∀ t e, llmResult = .ok t → ttsResult = .error e →
      (scold_user m pk llmResult ttsResult).2 =
        [.contextBuilt pk.event m.get_summary, .llmRequested, .ttsStarted,
         .ttsErrorLogged e]) := by
  cases llmResult with
  | error e =>
    refine ⟨rfl, ?_, ?_, ?_⟩
    · simp [scold_user, List.countP_cons, isLlmRequestOp]
    · intro e' he'
      injection he' with h
      subst h
      rfl
    · intro t e' ht _
      cases ht
  | ok text =>
    cases ttsResult with
    | error e =>
      refine ⟨rfl, ?_, ?_, ?_⟩
      · simp [scold_user, List.countP_cons, isLlmRequestOp]
      · intro e' he'
        cases he'
      · intro t e' ht he'
        injection ht with h1
        injection he' with h2
        subst h1
        subst h2
        rfl
    | ok u =>
      refine ⟨rfl, ?_, ?_, ?_⟩
      · simp [scold_user, List.countP_cons, isLlmRequestOp]
      · intro e' he'
        cases he'
      · intro t e' _ he'
        cases he'

theorem spec_c7_witness :
    (scold_user agentMemoryAtStartup ⟨"PHONE_DETECTED", []⟩
      (.error "LLM timeout") (.ok ())).1 = agentMemoryAtStartup ∧
    (scold_user agentMemoryAtStartup ⟨"PHONE_DETECTED", []⟩
      (.error "LLM timeout") (.ok ())).2 =
      [.contextBuilt "PHONE_DETECTED" agentMemoryAtStartup.get_summary,
       .llmRequested, .llmErrorLogged "LLM timeout"] :=
  ⟨(spec_c7_scold_failure_isolation agentMemoryAtStartup ⟨"PHONE_DETECTED", []⟩
      (.error "LLM timeout") (.ok ())).1,
   (spec_c7_scold_failure_isolation agentMemoryAtStartup ⟨"PHONE_DETECTED", []⟩
      (.error "LLM timeout") (.ok ())).2.2.1 "LLM timeout" rfl⟩

/-- C10: calling `LiveKitClient.send_packet` while not connected or
without a room is a no-op apart from a warning: nothing is published on
the data channel, no exception propagates, and the client state is
unchanged. -/
theorem spec_c10_send_packet_guard (st : LiveKitClientState) (p : Packet)
    (pub : Except String Unit) (h : st.connected = false ∨ st.room = none) :
    send_packet st p pub = (st, [SendOp.warnedNotConnected]) ∧
    (∀ d t r, SendOp.published d t r ∉ (send_packet st p pub).2) := by
  have h' : st.connected = false ∨ st.room.isNone = true := by
    rcases h with h | h
    · exact Or.inl h
    · exact Or.inr (by simp [h])
  have hmain : send_packet st p pub = (st, [SendOp.warnedNotConnected]) := by
    unfold send_packet
    rw [if_pos h']
  refine ⟨hmain, ?_⟩
  intro d t r
  rw [hmain]
  simp

theorem spec_c10_witness :
    send_packet ⟨false, none, false⟩ ⟨"PHONE_DETECTED", []⟩ (.ok ()) =
      (⟨false, none, false⟩, [SendOp.warnedNotConnected]) :=
  (spec_c10_send_packet_guard ⟨false, none, false⟩ ⟨"PHONE_DETECTED", []⟩ (.ok ())
    (Or.inl rfl)).1

theorem spec_c2_witness :
    ((∃ k, DispatchOp.eventAdded k ∈ (on_data agentStateAtStartup mysteryRaw 0).2) ↔
      (∃ k, DispatchOp.alertChecked k true ∈ (on_data agentStateAtStartup mysteryRaw 0).2)) ∧
    ((on_data agentStateAtStartup mysteryRaw 0).2.countP isEventAddedOp ≤ 1) ∧
    (∀ k, DispatchOp.taskSpawned k ∈ (on_data agentStateAtStartup mysteryRaw 0).2 →
      ∃ pre post,
        (on_data agentStateAtStartup mysteryRaw 0).2 =
          pre ++ DispatchOp.eventAdded k :: post ∧
        DispatchOp.taskSpawned k ∈ post) :=
  spec_c2_dispatch_pairing agentStateAtStartup mysteryRaw 0
